import Mathlib

/-!
Verification of the go-mapbox geocoding client (`lib/geocode_v6` and the parts
of `lib/base` it relies on) against its natural-language specification.

The Go code is embedded shallowly:

* Query-parameter marshalling is the composition of `go-querystring`
  (`query.Values`, reflecting over the `url:"...,omitempty"` struct tags in
  `geocode.go`) with `net/url` (`Values.Encode`, which sorts keys and
  query-escapes keys and values, and `ParseQuery`, which splits on `&`,
  cuts each piece at the first `=`, skips empty keys and unescapes).
  Go strings are byte strings, so escaping is modelled on the UTF-8 bytes.
* Each geocode operation builds a request value (path, query parameters and,
  for batch, a body) and hands it to a transport function standing for the
  single HTTP round trip performed by `base.QueryBase` /
  `base.QueryWithBodyBase`; the operation returns whatever the transport
  returns, which mirrors the Go code exactly (one request built, one call
  issued, no retry and no local post-processing).
* `float64` is an abstract type parameter `F`; the two formatting functions
  the source applies to floats (`fmt.Sprintf("%f", ·)` in the helpers and
  `strconv.FormatFloat(·, 'f', -1, 64)` in `Reverse`) are passed in as
  uninterpreted functions.
-/

set_option maxRecDepth 10000

namespace GoMapbox

/-- UTF-8 byte encoding of one character. Go strings are byte strings and
`net/url` escaping operates on those bytes. -/
def utf8Bytes (c : Char) : List Nat :=
  if c.toNat < 128 then [c.toNat]
  else if c.toNat < 2048 then [192 + c.toNat / 64, 128 + c.toNat % 64]
  else if c.toNat < 65536 then
    [224 + c.toNat / 4096, 128 + c.toNat / 64 % 64, 128 + c.toNat % 64]
  else
    [240 + c.toNat / 262144, 128 + c.toNat / 4096 % 64, 128 + c.toNat / 64 % 64,
      128 + c.toNat % 64]

/-- The UTF-8 bytes of a string, as Go sees it. -/
def strBytes (s : String) : List Nat :=
  s.data.foldr (fun c acc => utf8Bytes c ++ acc) []

/-- Upper-case hexadecimal digit, as produced by `net/url` escaping. -/
def hexDig (n : Nat) : Char :=
  if n < 10 then Char.ofNat (48 + n) else Char.ofNat (55 + n)

/-- Bytes `net/url.QueryEscape` leaves unescaped: ASCII alphanumerics and
`-`, `.`, `_`, `~`. -/
def isUnreservedByte (b : Nat) : Bool :=
  (65 ≤ b && b ≤ 90) || (97 ≤ b && b ≤ 122) || (48 ≤ b && b ≤ 57) ||
    b == 45 || b == 46 || b == 95 || b == 126

/-- How `net/url.QueryEscape` renders a single byte: space becomes `+`,
unreserved bytes stand for themselves, everything else becomes `%XX`. -/
def escapeByte (b : Nat) : List Char :=
  if b = 32 then ['+']
  else if isUnreservedByte b then [Char.ofNat b]
  else ['%', hexDig (b / 16), hexDig (b % 16)]

/-- Query-escape a byte sequence. -/
def escBytes (bs : List Nat) : List Char :=
  bs.foldr (fun b acc => escapeByte b ++ acc) []

/-- Model of `net/url.QueryEscape` on a Go string. -/
def queryEscape (s : String) : List Char :=
  escBytes (strBytes s)

/-- Numeric value of a hexadecimal digit character (used by unescaping). -/
def unhexDig (c : Char) : Nat :=
  if 48 ≤ c.toNat ∧ c.toNat ≤ 57 then c.toNat - 48
  else if 65 ≤ c.toNat ∧ c.toNat ≤ 70 then c.toNat - 55
  else if 97 ≤ c.toNat ∧ c.toNat ≤ 102 then c.toNat - 87
  else 0

/-- Model of `net/url.QueryUnescape` down to bytes: `+` becomes a space and
`%XX` becomes the byte `XX`. On a truncated escape Go reports an error;
that case never arises on escaper output and is rendered here as `[]`. -/
def unescapeBytes : List Char → List Nat
  | [] => []
  | '%' :: a :: b :: rest => (16 * unhexDig a + unhexDig b) :: unescapeBytes rest
  | '%' :: [_] => []
  | ['%'] => []
  | '+' :: rest => 32 :: unescapeBytes rest
  | c :: rest => c.toNat :: unescapeBytes rest

/-- Join character lists with a separator character (`strings.Join`). -/
def joinChar (sep : Char) : List (List Char) → List Char
  | [] => []
  | [x] => x
  | x :: xs => x ++ sep :: joinChar sep xs

/-- Split a character list on a separator character (`strings.Split`);
always returns at least one segment. -/
def splitOnChar (sep : Char) : List Char → List (List Char)
  | [] => [[]]
  | c :: rest =>
    if c = sep then [] :: splitOnChar sep rest
    else
      match splitOnChar sep rest with
      | [] => [[c]]
      | h :: t => (c :: h) :: t

/-- Byte-wise lexicographic order on byte sequences; this is exactly the
order `sort.Strings` uses on the underlying Go strings. -/
def lexLeBytes : List Nat → List Nat → Bool
  | [], _ => true
  | _ :: _, [] => false
  | a :: as, b :: bs => if a < b then true else if b < a then false else lexLeBytes as bs

/-- Insert one key-value pair into a list sorted by key. -/
def insertByKey (p : String × String) : List (String × String) → List (String × String)
  | [] => [p]
  | q :: qs => if lexLeBytes (strBytes p.1) (strBytes q.1) then p :: q :: qs
    else q :: insertByKey p qs

/-- Sort key-value pairs by key, as `url.Values.Encode` does before writing
the query string. -/
def sortByKey : List (String × String) → List (String × String)
  | [] => []
  | p :: ps => insertByKey p (sortByKey ps)

/-- Render one key-value pair as `escapedKey=escapedValue`. -/
def encodePair (p : String × String) : List Char :=
  queryEscape p.1 ++ '=' :: queryEscape p.2

/-- Model of `url.Values.Encode`: sort by key, escape keys and values, join
with `&`. The geocode module represents `url.Values` as a list of key-value
pairs with pairwise distinct keys, so the order of the list itself is
irrelevant after sorting. -/
def encodeValues (vs : List (String × String)) : List Char :=
  joinChar '&' ((sortByKey vs).map encodePair)

/-- The keys `url.ParseQuery` recovers from a query string: split on `&`,
take each piece up to the first `=`, skip empty keys, unescape. Keys are
returned as byte sequences, matching the Go byte-string view. -/
def parseQueryKeys (s : List Char) : List (List Nat) :=
  (((splitOnChar '&' s).map (List.takeWhile (fun c => c != '='))).filter
    (fun k => k ≠ [])).map unescapeBytes

/-- Keys obtained by building the query string for the given parameter list
and parsing it back (the round trip of the spec). -/
def builtQueryKeys (vs : List (String × String)) : List (List Nat) :=
  parseQueryKeys (encodeValues vs)

/-- Contribution of a `string` field tagged `url:"k,omitempty"` to
`query.Values`: nothing when the field holds the zero value `""`. -/
def qs (k v : String) : List (String × String) :=
  if v = "" then [] else [(k, v)]

/-- Contribution of a `bool` field tagged `url:"k,omitempty"`: nothing when
`false`, the pair `(k, "true")` when `true` (go-querystring renders an
included bool with `fmt.Sprint`). -/
def qb (k : String) (b : Bool) : List (String × String) :=
  if b then [(k, "true")] else []

/-- Contribution of a `uint` field tagged `url:"k,omitempty"`: nothing when
`0`, the decimal rendering otherwise. -/
def qn (k : String) (n : Nat) : List (String × String) :=
  if n = 0 then [] else [(k, Nat.repr n)]

/-- `geocode.ForwardRequestOpts` with its `url` tags; field defaults are the
Go zero values. -/
structure ForwardRequestOpts where
  Country : String := ""
  Proximity : String := ""
  Types : String := ""
  Autocomplete : Bool := false
  BBox : String := ""
  Limit : Nat := 0
  Language : String := ""
  Worldview : String := ""
  Format : String := ""
  Permanent : Bool := false
deriving DecidableEq

/-- `query.Values` on a `ForwardRequestOpts`, field by field in struct
order, honouring `omitempty`. -/
def forwardValues (o : ForwardRequestOpts) : List (String × String) :=
  qs "country" o.Country ++ qs "proximity" o.Proximity ++ qs "types" o.Types ++
    qb "autocomplete" o.Autocomplete ++ qs "bbox" o.BBox ++ qn "limit" o.Limit ++
    qs "language" o.Language ++ qs "worldview" o.Worldview ++ qs "format" o.Format ++
    qb "permanent" o.Permanent

/-- `geocode.StructuredInputOpts` with its `url` tags. -/
structure StructuredInputOpts where
  AddressLine1 : String := ""
  AddressNumber : String := ""
  Street : String := ""
  Block : String := ""
  Place : String := ""
  Region : String := ""
  Postcode : String := ""
  Locality : String := ""
  Neighborhood : String := ""
  Country : String := ""
  Autocomplete : Bool := false
  BBox : String := ""
  Format : String := ""
  Language : String := ""
  Limit : Nat := 0
  Proximity : String := ""
  Types : String := ""
  Worldview : String := ""
  Permanent : Bool := false
deriving DecidableEq

/-- `query.Values` on a `StructuredInputOpts`. -/
def structuredValues (o : StructuredInputOpts) : List (String × String) :=
  qs "address_line1" o.AddressLine1 ++ qs "address_number" o.AddressNumber ++
    qs "street" o.Street ++ qs "block" o.Block ++ qs "place" o.Place ++
    qs "region" o.Region ++ qs "postcode" o.Postcode ++ qs "locality" o.Locality ++
    qs "neighborhood" o.Neighborhood ++ qs "country" o.Country ++
    qb "autocomplete" o.Autocomplete ++ qs "bbox" o.BBox ++ qs "format" o.Format ++
    qs "language" o.Language ++ qn "limit" o.Limit ++ qs "proximity" o.Proximity ++
    qs "types" o.Types ++ qs "worldview" o.Worldview ++ qb "permanent" o.Permanent

/-- `geocode.ReverseRequestOpts` with its `url` tags. -/
structure ReverseRequestOpts where
  Types : String := ""
  Limit : Nat := 0
  Country : String := ""
  Language : String := ""
  Worldview : String := ""
  Permanent : Bool := false
deriving DecidableEq

/-- `query.Values` on a `ReverseRequestOpts`. -/
def reverseValues (o : ReverseRequestOpts) : List (String × String) :=
  qs "types" o.Types ++ qn "limit" o.Limit ++ qs "country" o.Country ++
    qs "language" o.Language ++ qs "worldview" o.Worldview ++ qb "permanent" o.Permanent

/-- `geocode.BatchRequestOpts` with its `url` tag. -/
structure BatchRequestOpts where
  Permanent : Bool := false
deriving DecidableEq

/-- `query.Values` on a `BatchRequestOpts`. -/
def batchValues (o : BatchRequestOpts) : List (String × String) :=
  qb "permanent" o.Permanent

/-- `url.Values.Set`: replace any binding of the key and bind it to the
single given value. -/
def setParam (vs : List (String × String)) (k v : String) : List (String × String) :=
  vs.filter (fun p => p.1 ≠ k) ++ [(k, v)]

/-- `base.Location`, with `float64` abstracted to `F`. -/
structure Location (F : Type) where
  Longitude : F
  Latitude : F

/-- `base.BoundingBox` is a `float64` slice in the base package (the
geocode module applies `len` to it); modelled from the spec as well:
four floats, west, south, east, north. -/
abbrev BoundingBox (F : Type) := List F

/-- `geocode.BatchQuery`, with `float64` abstracted to `F`. The batch body
is handed to the transport as the typed slice itself; JSON marshalling
happens inside `base.QueryWithBodyBase`, which is not part of the geocode
module. -/
structure BatchQuery (F : Type) where
  Q : String := ""
  Types : String := ""
  BBox : String := ""
  Limit : Int := 0
  Country : String := ""
  Language : String := ""
  AddressLine1 : String := ""
  AddressNumber : String := ""
  Street : String := ""
  Block : String := ""
  Place : String := ""
  Region : String := ""
  Postcode : String := ""
  Locality : String := ""
  Neighborhood : String := ""
  Longitude : Option F := none
  Latitude : Option F := none
  Autocomplete : Bool := false
  Proximity : String := ""
  Worldview : String := ""
  Format : String := ""

/-- A GET request as assembled by the geocode module and handed to
`base.QueryBase`. -/
structure GetReq where
  path : String
  query : List (String × String)
deriving DecidableEq

/-- A POST request as assembled by `Batch` and handed to
`base.QueryWithBodyBase`. -/
structure PostReq (F : Type) where
  path : String
  query : List (String × String)
  body : List (BatchQuery F)

/-- The request `Forward` builds: the options struct marshalled to query
parameters (a nil pointer is replaced by the zero struct first), the
search text set under `q`, path `search/geocode/v6/forward`. -/
def forwardReq (place : String) (req : Option ForwardRequestOpts) : GetReq :=
  { path := "search/geocode/v6/forward"
    query := setParam (forwardValues (req.getD {})) "q" place }

/-- `Geocode.Forward`: build the request, issue it through the transport,
return whatever the transport returns. -/
def Forward {R : Type} (t : GetReq → R) (place : String)
    (req : Option ForwardRequestOpts) : R :=
  t (forwardReq place req)

/-- The request `ForwardStructured` builds. There is no nil guard in the
source; `query.Values` on a nil pointer yields empty values. -/
def forwardStructuredReq (req : Option StructuredInputOpts) : GetReq :=
  { path := "search/geocode/v6/forward"
    query := match req with
      | none => []
      | some o => structuredValues o }

/-- `Geocode.ForwardStructured`. -/
def ForwardStructured {R : Type} (t : GetReq → R) (req : Option StructuredInputOpts) : R :=
  t (forwardStructuredReq req)

/-- The request `Reverse` builds: marshalled options plus `longitude` and
`latitude` set from the location via `strconv.FormatFloat(·, 'f', -1, 64)`
(the uninterpreted `fmtG`), path `search/geocode/v6/reverse`. -/
def reverseReq {F : Type} (fmtG : F → String) (loc : Location F)
    (req : Option ReverseRequestOpts) : GetReq :=
  { path := "search/geocode/v6/reverse"
    query := setParam (setParam (reverseValues (req.getD {}))
      "longitude" (fmtG loc.Longitude)) "latitude" (fmtG loc.Latitude) }

/-- `Geocode.Reverse`. -/
def Reverse {F R : Type} (fmtG : F → String) (t : GetReq → R) (loc : Location F)
    (req : Option ReverseRequestOpts) : R :=
  t (reverseReq fmtG loc req)

/-- The request `Batch` builds: marshalled options as query parameters, the
query slice as body, path `search/geocode/v6/batch`. The source contains no
check on the number of queries. -/
def batchReq {F : Type} (queries : List (BatchQuery F))
    (req : Option BatchRequestOpts) : PostReq F :=
  { path := "search/geocode/v6/batch"
    query := batchValues (req.getD {})
    body := queries }

/-- `Geocode.Batch`. -/
def Batch {F R : Type} (t : PostReq F → R) (queries : List (BatchQuery F))
    (req : Option BatchRequestOpts) : R :=
  t (batchReq queries req)

/-- `geocode.Type` is a string type in the source; its constants follow. -/
abbrev GeoType := String

/-- Constant `geocode.Country`. -/
def CountryT : GeoType := "country"

/-- Constant `geocode.Region`. -/
def RegionT : GeoType := "region"

/-- Constant `geocode.Postcode`. -/
def PostcodeT : GeoType := "postcode"

/-- Constant `geocode.District`. -/
def DistrictT : GeoType := "district"

/-- Constant `geocode.Place`. -/
def PlaceT : GeoType := "place"

/-- Constant `geocode.Locality`. -/
def LocalityT : GeoType := "locality"

/-- Constant `geocode.Neighborhood`. -/
def NeighborhoodT : GeoType := "neighborhood"

/-- Constant `geocode.Street`. -/
def StreetT : GeoType := "street"

/-- Constant `geocode.Block`. -/
def BlockT : GeoType := "block"

/-- Constant `geocode.Address`. -/
def AddressT : GeoType := "address"

/-- Constant `geocode.SecondaryAddress`. -/
def SecondaryAddressT : GeoType := "secondary_address"

/-- `geocode.typesToString`: empty slice gives `""`, otherwise the names
joined with commas. -/
def typesToString (types : List GeoType) : String :=
  if types.length = 0 then "" else String.intercalate "," types

/-- `geocode.proximityToString`: `""` unless the slice has exactly two
entries, otherwise `fmt.Sprintf("%f,%f", p[0], p[1])` with `%f` passed in
as the uninterpreted `fmtF`. -/
def proximityToString {F : Type} (fmtF : F → String) : List F → String
  | [a, b] => fmtF a ++ "," ++ fmtF b
  | _ => ""

/-- `geocode.bboxToString`: `""` unless the box has exactly four entries. -/
def bboxToString {F : Type} (fmtF : F → String) : BoundingBox F → String
  | [a, b, c, d] => fmtF a ++ "," ++ fmtF b ++ "," ++ fmtF c ++ "," ++ fmtF d
  | _ => ""

/-- `Geocode.ForwardWithTypes`: replace a nil options pointer by the zero
struct, overwrite the `Types` field only when the slice is nonempty, then
delegate to `Forward`. -/
def ForwardWithTypes {R : Type} (t : GetReq → R) (place : String)
    (types : List GeoType) (req : Option ForwardRequestOpts) : R :=
  let req0 := req.getD {}
  let req1 := if types.length > 0 then { req0 with Types := typesToString types } else req0
  Forward t place (some req1)

/-- `Geocode.ForwardWithProximity`: overwrite the `Proximity` field only
when the slice has exactly two entries, then delegate to `Forward`. -/
def ForwardWithProximity {F R : Type} (fmtF : F → String) (t : GetReq → R)
    (place : String) (proximity : List F) (req : Option ForwardRequestOpts) : R :=
  let req0 := req.getD {}
  let req1 := if proximity.length = 2
    then { req0 with Proximity := proximityToString fmtF proximity } else req0
  Forward t place (some req1)

/-- `Geocode.ForwardWithBBox`: overwrite the `BBox` field only when the box
has exactly four entries, then delegate to `Forward`. -/
def ForwardWithBBox {F R : Type} (fmtF : F → String) (t : GetReq → R)
    (place : String) (bbox : BoundingBox F) (req : Option ForwardRequestOpts) : R :=
  let req0 := req.getD {}
  let req1 := if bbox.length = 4
    then { req0 with BBox := bboxToString fmtF bbox } else req0
  Forward t place (some req1)

/-- `Geocode.ReverseWithTypes`: overwrite the `Types` field only when the
slice is nonempty, then delegate to `Reverse`. -/
def ReverseWithTypes {F R : Type} (fmtG : F → String) (t : GetReq → R)
    (loc : Location F) (types : List GeoType) (req : Option ReverseRequestOpts) : R :=
  let req0 := req.getD {}
  let req1 := if types.length > 0 then { req0 with Types := typesToString types } else req0
  Reverse fmtG t loc (some req1)

/-- `Geocode.ForwardLegacy`: variadic `permanent` flag of the v5 signature;
sets `Permanent` when the first variadic argument is `true`. -/
def ForwardLegacy {R : Type} (t : GetReq → R) (place : String)
    (req : Option ForwardRequestOpts) (permanent : List Bool) : R :=
  let req0 := req.getD {}
  let req1 := if 0 < permanent.length ∧ permanent.headD false = true
    then { req0 with Permanent := true } else req0
  Forward t place (some req1)

/-- `Geocode.ReverseLegacy`: plain delegation to `Reverse`. -/
def ReverseLegacy {F R : Type} (fmtG : F → String) (t : GetReq → R)
    (loc : Location F) (req : Option ReverseRequestOpts) : R :=
  Reverse fmtG t loc req

/-- Typed errors of the base client. `ErrorAPIUnauthorized` and
`ErrorAPILimitExceeded` are declared in `lib/base/errors.go`; the
missing-token error is the local precondition failure of spec section 7. -/
inductive BaseError where
  | tokenRequired
  | apiUnauthorized
  | apiLimitExceeded
deriving DecidableEq

/-- The base client: holds the immutable API token. -/
structure Base where
  token : String
deriving DecidableEq

/-- Modelled from the spec: `base.NewBase` is not under `src/` (only its
callers and `errors.go` are). Spec section 4.1: contract
`new(token) -> Client | fails if token empty`, and section 7: an empty or
missing token is a local precondition failure surfaced before any network
call. The constructor is accordingly a pure function of the token alone:
no transport is involved, it fails exactly on the empty token. -/
def NewBase (token : String) : Except BaseError Base :=
  if token = "" then Except.error BaseError.tokenRequired
  else Except.ok { token := token }

/-- Modelled from the spec: `base.FeatureCollection` lives in the base
package, not under `src/`. Spec section 3: a feature has a geometry
(coordinates) and a mapping of property names to values. -/
structure Feature (F : Type) where
  coordinates : List F
  properties : List (String × String)

/-- Modelled from the spec: a collection is an ordered sequence of features
plus a collection type tag. -/
structure FeatureCollection (F : Type) where
  type : String
  features : List (Feature F)

/-- `geocode.BatchResponse`: the decoded `{batch: [FeatureCollection...]}`
shape. -/
structure BatchResponse (F : Type) where
  batch : List (FeatureCollection F)

/-- Decimal string to number, used by the mock transport to read the
`limit` parameter the client put into the query. -/
def decimalNat? (s : String) : Option Nat :=
  if s.data ≠ [] ∧ s.data.all (fun c => 48 ≤ c.toNat ∧ c.toNat ≤ 57) then
    some (s.data.foldl (fun acc c => 10 * acc + (c.toNat - 48)) 0)
  else none

/-- The result-count cap a request asks for: the decoded `limit` query
parameter, or no cap when the parameter is absent or unreadable. -/
def requestedLimit (dflt : Nat) (q : List (String × String)) : Nat :=
  match q.lookup "limit" with
  | some s => (decimalNat? s).getD dflt
  | none => dflt

/-- Modelled from the spec: a placeholder HTTP layer for the forward
endpoint (spec section 8 posits a placeholder/mock HTTP layer). It owns a
pool of candidate features and honours the `limit` parameter carried by the
request it is given, as the provider documents. -/
def mockForward {F : Type} (pool : List (Feature F)) :
    GetReq → Except BaseError (FeatureCollection F) :=
  fun r => Except.ok
    { type := "FeatureCollection"
      features := pool.take (requestedLimit pool.length r.query) }

/-- Modelled from the spec: a placeholder HTTP layer for the batch
endpoint. Spec section 6: the response is `{batch: [FeatureCollection...]}`
with one entry per query, order preserved; spec section 7: no
partial-failure semantics. The mock answers every query in the body, in
order. -/
def mockBatch {F : Type} (answer : BatchQuery F → FeatureCollection F) :
    PostReq F → Except BaseError (BatchResponse F) :=
  fun r => Except.ok { batch := r.body.map answer }

theorem char_toNat_lt (c : Char) : c.toNat < 1114112 := by
  have h := c.valid
  unfold UInt32.isValidChar Nat.isValidChar at h
  show c.val.toNat < _
  omega

theorem utf8Bytes_lt (c : Char) : ∀ b ∈ utf8Bytes c, b < 256 := by
  have h := char_toNat_lt c
  unfold utf8Bytes
  intro b hb
  split_ifs at hb <;> simp at hb <;> omega

theorem utf8Bytes_ne_nil (c : Char) : utf8Bytes c ≠ [] := by
  unfold utf8Bytes
  split_ifs <;> simp

theorem strBytes_lt (s : String) : ∀ b ∈ strBytes s, b < 256 := by
  show ∀ b ∈ s.data.foldr (fun c acc => utf8Bytes c ++ acc) [], b < 256
  induction s.data with
  | nil => simp
  | cons c l ih =>
    intro b hb
    simp only [List.foldr_cons, List.mem_append] at hb
    rcases hb with hb | hb
    · exact utf8Bytes_lt c b hb
    · exact ih b hb

theorem strBytes_ne_nil {s : String} (h : s ≠ "") : strBytes s ≠ [] := by
  have hd : s.data ≠ [] := fun hh => h (String.ext (by simp [hh]))
  show s.data.foldr (fun c acc => utf8Bytes c ++ acc) [] ≠ []
  cases hs : s.data with
  | nil => exact absurd hs hd
  | cons c l =>
    simp only [List.foldr_cons]
    intro hcontra
    exact utf8Bytes_ne_nil c (List.append_eq_nil.mp hcontra).1

theorem escapeByte_sep_facts : ∀ b, b < 256 →
    ('&' ∉ escapeByte b ∧ '=' ∉ escapeByte b) := by decide

theorem escapeByte_unres_facts : ∀ b, b < 256 → isUnreservedByte b = true →
    (Char.ofNat b ≠ '%' ∧ Char.ofNat b ≠ '+' ∧ (Char.ofNat b).toNat = b) := by decide

theorem hexDig_roundtrip : ∀ b, b < 256 →
    16 * unhexDig (hexDig (b / 16)) + unhexDig (hexDig (b % 16)) = b := by decide

theorem escapeByte_ne_nil (b : Nat) : escapeByte b ≠ [] := by
  unfold escapeByte
  split_ifs <;> simp

theorem unescape_escapeByte {b : Nat} (hb : b < 256) (rest : List Char) :
    unescapeBytes (escapeByte b ++ rest) = b :: unescapeBytes rest := by
  unfold escapeByte
  split_ifs with h1 h2
  · subst h1
    simp [unescapeBytes]
  · obtain ⟨hp, hpl, ht⟩ := escapeByte_unres_facts b hb h2
    simp [unescapeBytes, hp, hpl, ht]
  · simp [unescapeBytes, hexDig_roundtrip b hb]

theorem escBytes_cons (b : Nat) (bs : List Nat) :
    escBytes (b :: bs) = escapeByte b ++ escBytes bs := rfl

theorem sep_not_mem_escBytes {bs : List Nat} (h : ∀ b ∈ bs, b < 256) :
    '&' ∉ escBytes bs ∧ '=' ∉ escBytes bs := by
  induction bs with
  | nil => simp [escBytes]
  | cons b bs ih =>
    have hb := h b (List.mem_cons_self b bs)
    have ihh := ih (fun x hx => h x (List.mem_cons_of_mem b hx))
    obtain ⟨h1, h2⟩ := escapeByte_sep_facts b hb
    rw [escBytes_cons]
    refine ⟨?_, ?_⟩ <;> rw [List.mem_append]
    · rintro (hc | hc)
      · exact h1 hc
      · exact ihh.1 hc
    · rintro (hc | hc)
      · exact h2 hc
      · exact ihh.2 hc

theorem escBytes_ne_nil {bs : List Nat} (h : bs ≠ []) : escBytes bs ≠ [] := by
  cases bs with
  | nil => exact absurd rfl h
  | cons b bs =>
    rw [escBytes_cons]
    intro hc
    exact escapeByte_ne_nil b (List.append_eq_nil.mp hc).1

theorem unescape_escBytes {bs : List Nat} (h : ∀ b ∈ bs, b < 256) :
    unescapeBytes (escBytes bs) = bs := by
  induction bs with
  | nil => rfl
  | cons b bs ih =>
    rw [escBytes_cons, unescape_escapeByte (h b (List.mem_cons_self b bs))]
    rw [ih (fun x hx => h x (List.mem_cons_of_mem b hx))]

theorem amp_not_mem_queryEscape (s : String) : '&' ∉ queryEscape s :=
  (sep_not_mem_escBytes (strBytes_lt s)).1

theorem eq_not_mem_queryEscape (s : String) : '=' ∉ queryEscape s :=
  (sep_not_mem_escBytes (strBytes_lt s)).2

theorem queryEscape_ne_nil {s : String} (h : s ≠ "") : queryEscape s ≠ [] :=
  escBytes_ne_nil (strBytes_ne_nil h)

theorem unescape_queryEscape (s : String) : unescapeBytes (queryEscape s) = strBytes s :=
  unescape_escBytes (strBytes_lt s)

theorem splitOnChar_sep_cons (sep : Char) (l : List Char) :
    splitOnChar sep (sep :: l) = [] :: splitOnChar sep l := by
  conv_lhs => unfold splitOnChar
  simp

theorem splitOnChar_append {sep : Char} : ∀ (x : List Char), sep ∉ x →
    ∀ {rest : List Char} {h : List Char} {t : List (List Char)},
    splitOnChar sep rest = h :: t →
    splitOnChar sep (x ++ rest) = (x ++ h) :: t
  | [], _, rest, h, t, hr => by simpa using hr
  | c :: x, hx, rest, h, t, hr => by
    have hc : c ≠ sep := fun hh => hx (hh ▸ List.mem_cons_self c x)
    have ihh := splitOnChar_append x (fun hm => hx (List.mem_cons_of_mem c hm)) hr
    simp only [List.cons_append]
    conv_lhs => unfold splitOnChar
    rw [if_neg hc, ihh]

theorem splitOnChar_joinChar {sep : Char} : ∀ (segs : List (List Char)), segs ≠ [] →
    (∀ s ∈ segs, sep ∉ s) → splitOnChar sep (joinChar sep segs) = segs
  | [], h, _ => absurd rfl h
  | [x], _, hs => by
    have hx : sep ∉ x := hs x (by simp)
    have hr : splitOnChar sep ([] : List Char) = [] :: [] := rfl
    have := splitOnChar_append x hx hr
    simpa [joinChar] using this
  | x :: y :: ys, _, hs => by
    have hx : sep ∉ x := hs x (by simp)
    have ih := splitOnChar_joinChar (y :: ys) (by simp)
      (fun s h => hs s (List.mem_cons_of_mem x h))
    have hr : splitOnChar sep (sep :: joinChar sep (y :: ys)) = [] :: y :: ys := by
      rw [splitOnChar_sep_cons, ih]
    have := splitOnChar_append x hx hr
    simpa [joinChar] using this

theorem takeWhile_append_cons {p : Char → Bool} : ∀ (xs : List Char),
    (∀ a ∈ xs, p a = true) → ∀ (y : Char), p y = false → ∀ (ys : List Char),
    List.takeWhile p (xs ++ y :: ys) = xs
  | [], _, y, hy, ys => by simp [List.takeWhile_cons, hy]
  | x :: xs, hx, y, hy, ys => by
    have h1 : p x = true := hx x (List.mem_cons_self x xs)
    simp only [List.cons_append, List.takeWhile_cons, h1]
    simp [takeWhile_append_cons xs (fun a ha => hx a (List.mem_cons_of_mem x ha)) y hy ys]

theorem mem_insertByKey {a p : String × String} {l : List (String × String)} :
    a ∈ insertByKey p l ↔ a = p ∨ a ∈ l := by
  induction l with
  | nil => simp [insertByKey]
  | cons q qs ih =>
    unfold insertByKey
    split_ifs
    · simp
    · simp [ih]
      tauto

theorem mem_sortByKey {a : String × String} {l : List (String × String)} :
    a ∈ sortByKey l ↔ a ∈ l := by
  induction l with
  | nil => simp [sortByKey]
  | cons p ps ih => simp [sortByKey, mem_insertByKey, ih]

theorem parseQueryKeys_encodeValues {vs : List (String × String)}
    (h : ∀ p ∈ vs, p.1 ≠ "") :
    parseQueryKeys (encodeValues vs) = (sortByKey vs).map (fun p => strBytes p.1) := by
  have hs : ∀ p ∈ sortByKey vs, p.1 ≠ "" := fun p hp => h p (mem_sortByKey.mp hp)
  rcases hw : sortByKey vs with _ | ⟨w, ws⟩
  · simp [encodeValues, hw, joinChar, parseQueryKeys, splitOnChar]
  · rw [encodeValues, hw]
    have hsplit : splitOnChar '&' (joinChar '&' ((w :: ws).map encodePair)) =
        (w :: ws).map encodePair := by
      apply splitOnChar_joinChar
      · simp
      · intro s hsm
        rcases List.mem_map.mp hsm with ⟨p, _, rfl⟩
        unfold encodePair
        rw [List.mem_append]
        rintro (hc | hc)
        · exact amp_not_mem_queryEscape p.1 hc
        · rcases List.mem_cons.mp hc with h1 | h1
          · exact absurd h1 (by decide)
          · exact amp_not_mem_queryEscape p.2 h1
    rw [parseQueryKeys, hsplit, List.map_map]
    have hkey : ∀ q : String × String,
        List.takeWhile (fun c => c != '=') (encodePair q) = queryEscape q.1 := by
      intro q
      unfold encodePair
      apply takeWhile_append_cons
      · intro a ha
        have hne : a ≠ '=' := fun hh => eq_not_mem_queryEscape q.1 (hh ▸ ha)
        simpa using hne
      · simp
    rw [show (List.takeWhile (fun c => c != '=') ∘ encodePair) =
        (fun q : String × String => List.takeWhile (fun c => c != '=') (encodePair q)) from rfl]
    rw [List.map_congr_left (fun q _ => hkey q)]
    rw [List.filter_eq_self.mpr (by
      intro a ha
      rcases List.mem_map.mp ha with ⟨p, hp, rfl⟩
      have : queryEscape p.1 ≠ [] := queryEscape_ne_nil (hs p (by rw [hw]; exact hp))
      simpa using this)]
    rw [List.map_map]
    apply List.map_congr_left
    intro q _
    exact unescape_queryEscape q.1

/-- Every query-parameter key the geocode module ever emits. -/
def allKeys : List String :=
  ["address_line1", "address_number", "street", "block", "place", "region",
    "postcode", "locality", "neighborhood", "country", "autocomplete", "bbox",
    "format", "language", "limit", "proximity", "types", "worldview",
    "permanent", "q", "longitude", "latitude"]

theorem allKeys_ne_empty : ∀ k ∈ allKeys, k ≠ "" := by decide

theorem strBytes_inj_on_allKeys : ∀ k1 ∈ allKeys, ∀ k2 ∈ allKeys,
    strBytes k1 = strBytes k2 → k1 = k2 := by decide

theorem key_mem_builtQueryKeys {vs : List (String × String)} {k : String}
    (hsub : ∀ p ∈ vs, p.1 ∈ allKeys) (hk : k ∈ allKeys) :
    strBytes k ∈ builtQueryKeys vs ↔ ∃ p ∈ vs, p.1 = k := by
  have h0 : ∀ p ∈ vs, p.1 ≠ "" := fun p hp => allKeys_ne_empty p.1 (hsub p hp)
  rw [builtQueryKeys, parseQueryKeys_encodeValues h0, List.mem_map]
  constructor
  · rintro ⟨p, hp, hpk⟩
    have hpv : p ∈ vs := mem_sortByKey.mp hp
    exact ⟨p, hpv, strBytes_inj_on_allKeys p.1 (hsub p hpv) k hk hpk⟩
  · rintro ⟨p, hp, rfl⟩
    exact ⟨p, mem_sortByKey.mpr hp, rfl⟩

theorem mem_qs {p : String × String} {k v : String} :
    p ∈ qs k v ↔ v ≠ "" ∧ p = (k, v) := by
  unfold qs
  split_ifs with h <;> simp_all

theorem mem_qb {p : String × String} {k : String} {b : Bool} :
    p ∈ qb k b ↔ b = true ∧ p = (k, "true") := by
  unfold qb
  split_ifs with h <;> simp_all

theorem mem_qn {p : String × String} {k : String} {n : Nat} :
    p ∈ qn k n ↔ n ≠ 0 ∧ p = (k, Nat.repr n) := by
  unfold qn
  split_ifs with h <;> simp_all

theorem setParam_of_not_mem {vs : List (String × String)} {k : String} (v : String)
    (h : ∀ p ∈ vs, p.1 ≠ k) : setParam vs k v = vs ++ [(k, v)] := by
  unfold setParam
  rw [List.filter_eq_self.mpr]
  intro a ha
  simpa using h a ha

/-- The keys `ForwardRequestOpts` can contribute, in struct order. -/
def forwardKeys : List String :=
  ["country", "proximity", "types", "autocomplete", "bbox", "limit",
    "language", "worldview", "format", "permanent"]

theorem forwardValues_keys {o : ForwardRequestOpts} {p : String × String}
    (hp : p ∈ forwardValues o) : p.1 ∈ forwardKeys := by
  unfold forwardValues at hp
  simp only [List.mem_append, mem_qs, mem_qb, mem_qn, or_assoc] at hp
  rcases hp with h | h | h | h | h | h | h | h | h | h <;> rw [h.2] <;> simp [forwardKeys]

/-- The keys `StructuredInputOpts` can contribute, in struct order. -/
def structuredKeys : List String :=
  ["address_line1", "address_number", "street", "block", "place", "region",
    "postcode", "locality", "neighborhood", "country", "autocomplete", "bbox",
    "format", "language", "limit", "proximity", "types", "worldview", "permanent"]

theorem structuredValues_keys {o : StructuredInputOpts} {p : String × String}
    (hp : p ∈ structuredValues o) : p.1 ∈ structuredKeys := by
  unfold structuredValues at hp
  simp only [List.mem_append, mem_qs, mem_qb, mem_qn, or_assoc] at hp
  rcases hp with h | h | h | h | h | h | h | h | h | h | h | h | h | h | h | h | h | h | h <;>
    rw [h.2] <;> simp [structuredKeys]

/-- The keys `ReverseRequestOpts` can contribute, in struct order. -/
def reverseKeys : List String :=
  ["types", "limit", "country", "language", "worldview", "permanent"]

theorem reverseValues_keys {o : ReverseRequestOpts} {p : String × String}
    (hp : p ∈ reverseValues o) : p.1 ∈ reverseKeys := by
  unfold reverseValues at hp
  simp only [List.mem_append, mem_qs, mem_qb, mem_qn, or_assoc] at hp
  rcases hp with h | h | h | h | h | h <;> rw [h.2] <;> simp [reverseKeys]

theorem batchValues_keys {o : BatchRequestOpts} {p : String × String}
    (hp : p ∈ batchValues o) : p.1 = "permanent" := by
  unfold batchValues at hp
  rw [mem_qb] at hp
  rw [hp.2]

theorem forwardReq_query (place : String) (o : ForwardRequestOpts) :
    (forwardReq place (some o)).query = forwardValues o ++ [("q", place)] := by
  show setParam (forwardValues o) "q" place = _
  apply setParam_of_not_mem
  intro p hp
  exact ne_of_mem_of_not_mem (forwardValues_keys hp) (by decide)

theorem reverseReq_query {F : Type} (fmtG : F → String) (loc : Location F)
    (o : ReverseRequestOpts) :
    (reverseReq fmtG loc (some o)).query =
      reverseValues o ++ [("longitude", fmtG loc.Longitude), ("latitude", fmtG loc.Latitude)] := by
  show setParam (setParam (reverseValues o) "longitude" (fmtG loc.Longitude))
    "latitude" (fmtG loc.Latitude) = _
  rw [setParam_of_not_mem (fmtG loc.Longitude) (fun p hp =>
    ne_of_mem_of_not_mem (reverseValues_keys hp) (by decide))]
  rw [setParam_of_not_mem (fmtG loc.Latitude) (by
    intro p hp
    rcases List.mem_append.mp hp with hm | hm
    · exact ne_of_mem_of_not_mem (reverseValues_keys hm) (by decide)
    · rcases List.mem_singleton.mp hm with rfl
      simp)]
  simp

theorem forwardKeys_sub : ∀ k ∈ forwardKeys, k ∈ allKeys := by decide

theorem structuredKeys_sub : ∀ k ∈ structuredKeys, k ∈ allKeys := by decide

theorem reverseKeys_sub : ∀ k ∈ reverseKeys, k ∈ allKeys := by decide

theorem forwardQuery_sub (place : String) (o : ForwardRequestOpts) :
    ∀ p ∈ (forwardReq place (some o)).query, p.1 ∈ allKeys := by
  rw [forwardReq_query]
  intro p hp
  rcases List.mem_append.mp hp with hm | hm
  · exact forwardKeys_sub p.1 (forwardValues_keys hm)
  · rcases List.mem_singleton.mp hm with rfl
    simp [allKeys]

theorem structuredQuery_sub (o : StructuredInputOpts) :
    ∀ p ∈ (forwardStructuredReq (some o)).query, p.1 ∈ allKeys :=
  fun p hp => structuredKeys_sub p.1 (structuredValues_keys hp)

theorem reverseQuery_sub {F : Type} (fmtG : F → String) (loc : Location F)
    (o : ReverseRequestOpts) :
    ∀ p ∈ (reverseReq fmtG loc (some o)).query, p.1 ∈ allKeys := by
  rw [reverseReq_query]
  intro p hp
  rcases List.mem_append.mp hp with hm | hm
  · exact reverseKeys_sub p.1 (reverseValues_keys hm)
  · rcases List.mem_cons.mp hm with rfl | hm2
    · simp [allKeys]
    · rcases List.mem_singleton.mp hm2 with rfl
      simp [allKeys]

theorem batchQuery_sub {F : Type} (queries : List (BatchQuery F)) (o : BatchRequestOpts) :
    ∀ p ∈ (batchReq queries (some o)).query, p.1 ∈ allKeys := by
  intro p hp
  rw [batchValues_keys hp]
  simp [allKeys]

/-- C1: for every token string, constructing the client with an empty token
fails with the missing-token typed error (and, the constructor being a pure
function of the token, before any network call), while a non-empty token
yields a client holding that token. -/
theorem newBase_token_check (token : String) :
    (token = "" → NewBase token = Except.error BaseError.tokenRequired) ∧
    (token ≠ "" → NewBase token = Except.ok { token := token }) := by
  constructor <;> intro h <;> simp [NewBase, h]

/-- Witness for C1 at the empty token and at a concrete non-empty token. -/
theorem newBase_token_check_witness :
    NewBase "" = Except.error BaseError.tokenRequired ∧
      NewBase "abc123" = Except.ok { token := "abc123" } :=
  ⟨(newBase_token_check "").1 rfl, (newBase_token_check "abc123").2 (by decide)⟩

/-- C2 counterexample: with an empty type slice and an options struct whose
`Types` field is already set, `ForwardWithTypes` keeps the old field value,
whereas setting the field to the comma-join of the empty slice (which is
`""`) and calling `Forward` drops the `types` parameter; the two requests
differ, so under the identity transport the behaviours differ. -/
theorem forwardWithTypes_empty_slice_differs :
    ForwardWithTypes (fun r => r) "x" [] (some { Types := "place" }) ≠
      Forward (fun r => r) "x"
        (some { ({ Types := "place" } : ForwardRequestOpts) with Types := typesToString [] }) := by
  decide

/-- C2 amended: for every nonempty type slice, `ForwardWithTypes` behaves
identically to `Forward` on the options with `Types` set to the comma-joined
names, and `ReverseWithTypes` likewise relative to `Reverse`; for the empty
slice both helpers leave the options untouched and delegate as-is. -/
theorem withTypes_eq_manual_field {F R : Type} (fmtG : F → String)
    (t tr : GetReq → R) (place : String) (loc : Location F) (ts : List GeoType)
    (req : ForwardRequestOpts) (rreq : ReverseRequestOpts) :
    (ts ≠ [] →
      ForwardWithTypes t place ts (some req) =
        Forward t place (some { req with Types := typesToString ts }) ∧
      ReverseWithTypes fmtG tr loc ts (some rreq) =
        Reverse fmtG tr loc (some { rreq with Types := typesToString ts })) ∧
    (ts = [] →
      ForwardWithTypes t place ts (some req) = Forward t place (some req) ∧
      ReverseWithTypes fmtG tr loc ts (some rreq) = Reverse fmtG tr loc (some rreq)) := by
  constructor
  · intro h
    have hl : ts.length > 0 := List.length_pos.mpr h
    constructor
    · simp [ForwardWithTypes, hl]
    · simp [ReverseWithTypes, hl]
  · rintro rfl
    exact ⟨rfl, rfl⟩

/-- Witness for C2 at the slice `[Address, Place]`, which joins to
`address,place`, and at the empty slice. -/
theorem withTypes_eq_manual_field_witness :
    typesToString [AddressT, PlaceT] = "address,place" ∧
      ForwardWithTypes (fun r => r) "x" [AddressT, PlaceT] (some {}) =
        Forward (fun r => r) "x"
          (some { ({} : ForwardRequestOpts) with Types := typesToString [AddressT, PlaceT] }) ∧
      ForwardWithTypes (fun r => r) "x" [] (some {}) = Forward (fun r => r) "x" (some {}) :=
  ⟨by decide,
    ((withTypes_eq_manual_field (fun _ => "") (fun r => r) (fun r => r) "x"
      (Location.mk () ()) [AddressT, PlaceT] {} {}).1 (by decide)).1,
    ((withTypes_eq_manual_field (fun _ => "") (fun r => r) (fun r => r) "x"
      (Location.mk () ()) [] {} {}).2 rfl).1⟩

/-- C4: for a proximity slice of length two, `ForwardWithProximity` behaves
identically to `Forward` on the options with `Proximity` set to the
`lon,lat` string the helper produces, so in particular the `proximity`
query parameter of the built request is the same. -/
theorem forwardWithProximity_eq_manual_field {F R : Type} (fmtF : F → String)
    (t : GetReq → R) (place : String) (p : List F) (req : ForwardRequestOpts)
    (h : p.length = 2) :
    ForwardWithProximity fmtF t place p (some req) =
      Forward t place (some { req with Proximity := proximityToString fmtF p }) := by
  simp [ForwardWithProximity, h]

/-- Witness for C4 at a concrete length-two slice, with the float type
instantiated to the identity-rendered `String`. -/
theorem forwardWithProximity_eq_manual_field_witness :
    (["1.5", "2.5"] : List String).length = 2 ∧
      ForwardWithProximity (fun s => s) (fun r => r) "s" ["1.5", "2.5"] (some {}) =
        Forward (fun r => r) "s"
          (some { ({} : ForwardRequestOpts) with
            Proximity := proximityToString (fun s => s) ["1.5", "2.5"] }) :=
  ⟨by decide,
    forwardWithProximity_eq_manual_field (fun s => s) (fun r => r) "s" ["1.5", "2.5"] {}
      (by decide)⟩

/-- C9: a proximity slice whose length is not two is silently ignored by
`ForwardWithProximity`, which then behaves exactly like `Forward` on the
unchanged options with no error of its own; `ForwardWithBBox` likewise
ignores a bounding box whose length is not four. -/
theorem helpers_ignore_malformed_slices {F R : Type} (fmtF : F → String)
    (t : GetReq → R) (place : String) (p : List F) (bb : BoundingBox F)
    (req : ForwardRequestOpts) :
    (p.length ≠ 2 →
      ForwardWithProximity fmtF t place p (some req) = Forward t place (some req)) ∧
    (bb.length ≠ 4 →
      ForwardWithBBox fmtF t place bb (some req) = Forward t place (some req)) := by
  constructor
  · intro h
    simp [ForwardWithProximity, h]
  · intro h
    simp [ForwardWithBBox, h]

/-- Witness for C9 at a length-one proximity slice and an empty bounding
box. -/
theorem helpers_ignore_malformed_slices_witness :
    (["1"] : List String).length ≠ 2 ∧
      ForwardWithProximity (fun s => s) (fun r => r) "s" ["1"] (some {}) =
        Forward (fun r => r) "s" (some {}) ∧
      ForwardWithBBox (fun s => s) (fun r => r) "s" [] (some {}) =
        Forward (fun r => r) "s" (some {}) :=
  ⟨by decide,
    (helpers_ignore_malformed_slices (fun s => s) (fun r => r) "s" ["1"] [] {}).1 (by decide),
    (helpers_ignore_malformed_slices (fun s => s) (fun r => r) "s" ["1"] [] {}).2 (by decide)⟩

/-- C10: every geocode operation taking an options pointer accepts a nil
pointer and behaves identically to receiving a pointer to the zero-valued
options struct. -/
theorem nil_options_eq_zero_struct {F R : Type} (fmtF fmtG : F → String)
    (t : GetReq → R) (tp : PostReq F → R) (place : String) (loc : Location F)
    (ts : List GeoType) (p : List F) (bb : BoundingBox F)
    (queries : List (BatchQuery F)) (perm : List Bool) :
    Forward t place none = Forward t place (some {}) ∧
    Reverse fmtG t loc none = Reverse fmtG t loc (some {}) ∧
    Batch tp queries none = Batch tp queries (some {}) ∧
    ForwardWithTypes t place ts none = ForwardWithTypes t place ts (some {}) ∧
    ForwardWithProximity fmtF t place p none = ForwardWithProximity fmtF t place p (some {}) ∧
    ForwardWithBBox fmtF t place bb none = ForwardWithBBox fmtF t place bb (some {}) ∧
    ReverseWithTypes fmtG t loc ts none = ReverseWithTypes fmtG t loc ts (some {}) ∧
    ForwardLegacy t place none perm = ForwardLegacy t place (some {}) perm :=
  ⟨rfl, rfl, rfl, rfl, rfl, rfl, rfl, rfl⟩

/-- C5: through the batch transport that answers each query of the body in
order, a `Batch` call on three queries returns a single successful response
holding exactly the three per-query results in input order; the result
type (`Except`) makes the call all-or-nothing, with no partial results. -/
theorem batch_three_queries_three_results {F : Type}
    (answer : BatchQuery F → FeatureCollection F) (q1 q2 q3 : BatchQuery F)
    (req : Option BatchRequestOpts) :
    Batch (mockBatch answer) [q1, q2, q3] req =
      Except.ok { batch := [answer q1, answer q2, answer q3] } := rfl

/-- C6: `Batch` performs no local validation of the query count: for every
query list it hands the transport the built request whose body is exactly
that list, including the empty list and lists beyond the provider limit of
1000. -/
theorem batch_no_local_count_validation {F R : Type} (t : PostReq F → R)
    (queries : List (BatchQuery F)) (req : Option BatchRequestOpts)
    (q : BatchQuery F) :
    Batch t queries req = t (batchReq queries req) ∧
    (batchReq queries req).body = queries ∧
    (batchReq ([] : List (BatchQuery F)) req).body = [] ∧
    (batchReq (List.replicate 1001 q) req).body.length = 1001 :=
  ⟨rfl, rfl, rfl, by simp [batchReq]⟩

theorem lookup_append_of_ne {k : String} {l1 l2 : List (String × String)}
    (h : ∀ p ∈ l1, p.1 ≠ k) : List.lookup k (l1 ++ l2) = List.lookup k l2 := by
  induction l1 with
  | nil => rfl
  | cons p l ih =>
    obtain ⟨a, b⟩ := p
    have hp : a ≠ k := h (a, b) (List.mem_cons_self (a, b) l)
    have hbeq : (k == a) = false := beq_eq_false_iff_ne.mpr (Ne.symm hp)
    rw [List.cons_append]
    simp only [List.lookup, hbeq]
    exact ih (fun q hq => h q (List.mem_cons_of_mem (a, b) hq))

theorem forwardReq_lookup_limit (place : String) (o : ForwardRequestOpts)
    (h : o.Limit ≠ 0) :
    (forwardReq place (some o)).query.lookup "limit" = some (Nat.repr o.Limit) := by
  rw [forwardReq_query]
  unfold forwardValues
  simp only [List.append_assoc]
  rw [lookup_append_of_ne (fun p hp => by rw [(mem_qs.mp hp).2]; simp)]
  rw [lookup_append_of_ne (fun p hp => by rw [(mem_qs.mp hp).2]; simp)]
  rw [lookup_append_of_ne (fun p hp => by rw [(mem_qs.mp hp).2]; simp)]
  rw [lookup_append_of_ne (fun p hp => by rw [(mem_qb.mp hp).2]; simp)]
  rw [lookup_append_of_ne (fun p hp => by rw [(mem_qs.mp hp).2]; simp)]
  unfold qn
  rw [if_neg h, List.singleton_append]
  simp [List.lookup]

set_option maxHeartbeats 1000000 in
/-- C7: through the placeholder HTTP layer that honours the `limit`
parameter, every successful `Forward` call whose options carry `Limit = 1`
returns a feature collection with at most one feature. -/
theorem forward_limit_one_bounds {F : Type} (pool : List (Feature F))
    (place : String) (o : ForwardRequestOpts) (h : o.Limit = 1) :
    ∃ fc, Forward (mockForward pool) place (some o) = Except.ok fc ∧
      fc.features.length ≤ 1 := by
  refine ⟨_, rfl, ?_⟩
  show (pool.take (requestedLimit pool.length (forwardReq place (some o)).query)).length ≤ 1
  have hl := forwardReq_lookup_limit place o (by rw [h]; exact one_ne_zero)
  rw [h] at hl
  unfold requestedLimit
  rw [hl]
  show (pool.take ((decimalNat? (Nat.repr 1)).getD pool.length)).length ≤ 1
  have hd : decimalNat? (Nat.repr 1) = some 1 := by decide
  rw [hd]
  simp only [Option.getD_some, List.length_take]
  omega

/-- Witness for C7: a two-feature pool with `Limit = 1` yields at most one
feature. -/
theorem forward_limit_one_bounds_witness :
    ({ Limit := 1 } : ForwardRequestOpts).Limit = 1 ∧
      ∃ fc, Forward (mockForward [Feature.mk ([] : List Unit) [], Feature.mk [] []])
        "2 lincoln memorial circle nw" (some { Limit := 1 }) = Except.ok fc ∧
        fc.features.length ≤ 1 :=
  ⟨rfl, forward_limit_one_bounds [Feature.mk ([] : List Unit) [], Feature.mk [] []]
    "2 lincoln memorial circle nw" { Limit := 1 } rfl⟩

/-- C3: every optional field of the four request-options structs that is
left at its zero value contributes no key to the query string the
corresponding operation builds: parsing the built query string back yields
no key for that field. -/
theorem unset_fields_absent_from_query {F : Type} (fmtG : F → String)
    (place : String) (loc : Location F) (queries : List (BatchQuery F))
    (o : ForwardRequestOpts) (so : StructuredInputOpts) (ro : ReverseRequestOpts)
    (bo : BatchRequestOpts) :
    ((o.Country = "" →
        strBytes "country" ∉ builtQueryKeys (forwardReq place (some o)).query) ∧
      (o.Proximity = "" →
        strBytes "proximity" ∉ builtQueryKeys (forwardReq place (some o)).query) ∧
      (o.Types = "" →
        strBytes "types" ∉ builtQueryKeys (forwardReq place (some o)).query) ∧
      (o.Autocomplete = false →
        strBytes "autocomplete" ∉ builtQueryKeys (forwardReq place (some o)).query) ∧
      (o.BBox = "" →
        strBytes "bbox" ∉ builtQueryKeys (forwardReq place (some o)).query) ∧
      (o.Limit = 0 →
        strBytes "limit" ∉ builtQueryKeys (forwardReq place (some o)).query) ∧
      (o.Language = "" →
        strBytes "language" ∉ builtQueryKeys (forwardReq place (some o)).query) ∧
      (o.Worldview = "" →
        strBytes "worldview" ∉ builtQueryKeys (forwardReq place (some o)).query) ∧
      (o.Format = "" →
        strBytes "format" ∉ builtQueryKeys (forwardReq place (some o)).query) ∧
      (o.Permanent = false →
        strBytes "permanent" ∉ builtQueryKeys (forwardReq place (some o)).query)) ∧
    ((so.AddressLine1 = "" →
        strBytes "address_line1" ∉ builtQueryKeys (forwardStructuredReq (some so)).query) ∧
      (so.AddressNumber = "" →
        strBytes "address_number" ∉ builtQueryKeys (forwardStructuredReq (some so)).query) ∧
      (so.Street = "" →
        strBytes "street" ∉ builtQueryKeys (forwardStructuredReq (some so)).query) ∧
      (so.Block = "" →
        strBytes "block" ∉ builtQueryKeys (forwardStructuredReq (some so)).query) ∧
      (so.Place = "" →
        strBytes "place" ∉ builtQueryKeys (forwardStructuredReq (some so)).query) ∧
      (so.Region = "" →
        strBytes "region" ∉ builtQueryKeys (forwardStructuredReq (some so)).query) ∧
      (so.Postcode = "" →
        strBytes "postcode" ∉ builtQueryKeys (forwardStructuredReq (some so)).query) ∧
      (so.Locality = "" →
        strBytes "locality" ∉ builtQueryKeys (forwardStructuredReq (some so)).query) ∧
      (so.Neighborhood = "" →
        strBytes "neighborhood" ∉ builtQueryKeys (forwardStructuredReq (some so)).query) ∧
      (so.Country = "" →
        strBytes "country" ∉ builtQueryKeys (forwardStructuredReq (some so)).query) ∧
      (so.Autocomplete = false →
        strBytes "autocomplete" ∉ builtQueryKeys (forwardStructuredReq (some so)).query) ∧
      (so.BBox = "" →
        strBytes "bbox" ∉ builtQueryKeys (forwardStructuredReq (some so)).query) ∧
      (so.Format = "" →
        strBytes "format" ∉ builtQueryKeys (forwardStructuredReq (some so)).query) ∧
      (so.Language = "" →
        strBytes "language" ∉ builtQueryKeys (forwardStructuredReq (some so)).query) ∧
      (so.Limit = 0 →
        strBytes "limit" ∉ builtQueryKeys (forwardStructuredReq (some so)).query) ∧
      (so.Proximity = "" →
        strBytes "proximity" ∉ builtQueryKeys (forwardStructuredReq (some so)).query) ∧
      (so.Types = "" →
        strBytes "types" ∉ builtQueryKeys (forwardStructuredReq (some so)).query) ∧
      (so.Worldview = "" →
        strBytes "worldview" ∉ builtQueryKeys (forwardStructuredReq (some so)).query) ∧
      (so.Permanent = false →
        strBytes "permanent" ∉ builtQueryKeys (forwardStructuredReq (some so)).query)) ∧
    ((ro.Types = "" →
        strBytes "types" ∉ builtQueryKeys (reverseReq fmtG loc (some ro)).query) ∧
      (ro.Limit = 0 →
        strBytes "limit" ∉ builtQueryKeys (reverseReq fmtG loc (some ro)).query) ∧
      (ro.Country = "" →
        strBytes "country" ∉ builtQueryKeys (reverseReq fmtG loc (some ro)).query) ∧
      (ro.Language = "" →
        strBytes "language" ∉ builtQueryKeys (reverseReq fmtG loc (some ro)).query) ∧
      (ro.Worldview = "" →
        strBytes "worldview" ∉ builtQueryKeys (reverseReq fmtG loc (some ro)).query) ∧
      (ro.Permanent = false →
        strBytes "permanent" ∉ builtQueryKeys (reverseReq fmtG loc (some ro)).query)) ∧
    (bo.Permanent = false →
      strBytes "permanent" ∉ builtQueryKeys (batchReq queries (some bo)).query) := by
  refine ⟨?_, ?_, ?_, ?_⟩
  · refine ⟨?_, ?_, ?_, ?_, ?_, ?_, ?_, ?_, ?_, ?_⟩ <;> intro h <;>
      (rw [key_mem_builtQueryKeys (forwardQuery_sub place o) (by decide),
        forwardReq_query]
       simp [forwardValues, mem_qs, mem_qb, mem_qn, h])
  · refine ⟨?_, ?_, ?_, ?_, ?_, ?_, ?_, ?_, ?_, ?_, ?_, ?_, ?_, ?_, ?_, ?_, ?_, ?_,
      ?_⟩ <;> intro h <;>
      (rw [key_mem_builtQueryKeys (structuredQuery_sub so) (by decide)]
       simp [forwardStructuredReq, structuredValues, mem_qs, mem_qb, mem_qn, h])
  · refine ⟨?_, ?_, ?_, ?_, ?_, ?_⟩ <;> intro h <;>
      (rw [key_mem_builtQueryKeys (reverseQuery_sub fmtG loc ro) (by decide),
        reverseReq_query]
       simp [reverseValues, mem_qs, mem_qb, mem_qn, h])
  · intro h
    rw [key_mem_builtQueryKeys (batchQuery_sub queries bo) (by decide)]
    simp [batchReq, batchValues, mem_qb, h]

/-- Witness for C3: on zero-valued options structs, representative unset
fields are missing from the parsed-back query strings of all four
operations. -/
theorem unset_fields_absent_from_query_witness :
    ({} : ForwardRequestOpts).Country = "" ∧
      strBytes "country" ∉ builtQueryKeys (forwardReq "x" (some {})).query ∧
      strBytes "address_line1" ∉
        builtQueryKeys (forwardStructuredReq (some ({} : StructuredInputOpts))).query ∧
      strBytes "types" ∉ builtQueryKeys
        (reverseReq (fun _u : Unit => "0") (Location.mk () ()) (some {})).query ∧
      strBytes "permanent" ∉ builtQueryKeys
        (batchReq ([] : List (BatchQuery Unit)) (some {})).query :=
  ⟨rfl,
    (unset_fields_absent_from_query (fun _u : Unit => "0") "x" (Location.mk () ())
      [] {} {} {} {}).1.1 rfl,
    (unset_fields_absent_from_query (fun _u : Unit => "0") "x" (Location.mk () ())
      [] {} {} {} {}).2.1.1 rfl,
    (unset_fields_absent_from_query (fun _u : Unit => "0") "x" (Location.mk () ())
      [] {} {} {} {}).2.2.1.1 rfl,
    (unset_fields_absent_from_query (fun _u : Unit => "0") "x" (Location.mk () ())
      [] {} {} {} {}).2.2.2 rfl⟩

/-- C8: the boolean omitempty fields (`Autocomplete`, `Permanent`) appear
in the built-and-parsed query string exactly when they are `true`, and when
present they always carry the value `true`; an explicitly false value is
indistinguishable from an unset one, so `autocomplete=false` is never
sent. -/
theorem bool_omitempty_key_iff_true {F : Type} (fmtG : F → String)
    (place : String) (loc : Location F) (queries : List (BatchQuery F))
    (o : ForwardRequestOpts) (so : StructuredInputOpts) (ro : ReverseRequestOpts)
    (bo : BatchRequestOpts) :
    ((strBytes "autocomplete" ∈ builtQueryKeys (forwardReq place (some o)).query ↔
        o.Autocomplete = true) ∧
      (strBytes "permanent" ∈ builtQueryKeys (forwardReq place (some o)).query ↔
        o.Permanent = true) ∧
      (strBytes "autocomplete" ∈ builtQueryKeys (forwardStructuredReq (some so)).query ↔
        so.Autocomplete = true) ∧
      (strBytes "permanent" ∈ builtQueryKeys (forwardStructuredReq (some so)).query ↔
        so.Permanent = true) ∧
      (strBytes "permanent" ∈ builtQueryKeys (reverseReq fmtG loc (some ro)).query ↔
        ro.Permanent = true) ∧
      (strBytes "permanent" ∈ builtQueryKeys (batchReq queries (some bo)).query ↔
        bo.Permanent = true)) ∧
    ((∀ v, ("autocomplete", v) ∈ (forwardReq place (some o)).query → v = "true") ∧
      (∀ v, ("permanent", v) ∈ (forwardReq place (some o)).query → v = "true") ∧
      (∀ v, ("autocomplete", v) ∈ (forwardStructuredReq (some so)).query → v = "true") ∧
      (∀ v, ("permanent", v) ∈ (forwardStructuredReq (some so)).query → v = "true") ∧
      (∀ v, ("permanent", v) ∈ (reverseReq fmtG loc (some ro)).query → v = "true") ∧
      (∀ v, ("permanent", v) ∈ (batchReq queries (some bo)).query → v = "true")) := by
  constructor
  · refine ⟨?_, ?_, ?_, ?_, ?_, ?_⟩
    · rw [key_mem_builtQueryKeys (forwardQuery_sub place o) (by decide), forwardReq_query]
      simp [forwardValues, mem_qs, mem_qb, mem_qn]
    · rw [key_mem_builtQueryKeys (forwardQuery_sub place o) (by decide), forwardReq_query]
      simp [forwardValues, mem_qs, mem_qb, mem_qn]
    · rw [key_mem_builtQueryKeys (structuredQuery_sub so) (by decide)]
      simp [forwardStructuredReq, structuredValues, mem_qs, mem_qb, mem_qn]
    · rw [key_mem_builtQueryKeys (structuredQuery_sub so) (by decide)]
      simp [forwardStructuredReq, structuredValues, mem_qs, mem_qb, mem_qn]
    · rw [key_mem_builtQueryKeys (reverseQuery_sub fmtG loc ro) (by decide),
        reverseReq_query]
      simp [reverseValues, mem_qs, mem_qb, mem_qn]
    · rw [key_mem_builtQueryKeys (batchQuery_sub queries bo) (by decide)]
      simp [batchReq, batchValues, mem_qb]
  · refine ⟨?_, ?_, ?_, ?_, ?_, ?_⟩ <;> intro v hv
    · rw [forwardReq_query] at hv
      simp only [forwardValues, List.mem_append, mem_qs, mem_qb, mem_qn, or_assoc,
        List.mem_singleton, Prod.mk.injEq] at hv
      tauto
    · rw [forwardReq_query] at hv
      simp only [forwardValues, List.mem_append, mem_qs, mem_qb, mem_qn, or_assoc,
        List.mem_singleton, Prod.mk.injEq] at hv
      tauto
    · simp only [forwardStructuredReq, structuredValues, List.mem_append,
        mem_qs, mem_qb, mem_qn, or_assoc, Prod.mk.injEq] at hv
      tauto
    · simp only [forwardStructuredReq, structuredValues, List.mem_append,
        mem_qs, mem_qb, mem_qn, or_assoc, Prod.mk.injEq] at hv
      tauto
    · rw [reverseReq_query] at hv
      simp only [reverseValues, List.mem_append, mem_qs, mem_qb, mem_qn, or_assoc,
        List.mem_cons, List.mem_singleton, Prod.mk.injEq] at hv
      tauto
    · simp only [batchReq, batchValues, mem_qb, Prod.mk.injEq] at hv
      tauto

/-- Witness for C8: with `Autocomplete := true` the key is present with
value `true`; with the zero struct it is absent. -/
theorem bool_omitempty_key_iff_true_witness :
    (strBytes "autocomplete" ∈
        builtQueryKeys (forwardReq "x" (some { Autocomplete := true })).query) ∧
      ¬ strBytes "autocomplete" ∈ builtQueryKeys (forwardReq "x" (some {})).query ∧
      "true" = "true" :=
  ⟨(bool_omitempty_key_iff_true (fun _u : Unit => "0") "x" (Location.mk () ()) []
      { Autocomplete := true } {} {} {}).1.1.mpr rfl,
    fun hm => by
      simpa using (bool_omitempty_key_iff_true (fun _u : Unit => "0") "x"
        (Location.mk () ()) [] {} {} {} {}).1.1.mp hm,
    (bool_omitempty_key_iff_true (fun _u : Unit => "0") "x" (Location.mk () ()) []
      { Autocomplete := true } {} {} {}).2.1 "true"
      (by decide)⟩

end GoMapbox
